import Mathlib

/-!
Shallow embedding of the `overlay-users` smart contract (src/src/lib.rs).

Accounts are modelled as naturals, contract addresses as pairs of
naturals (index, subindex), project identifiers as strings.  The
`StateMap` of `concordium-std` is modelled as an association list with
the entry-API operations (`and_modify`, `or_insert_with`, `get_mut`)
translated to first-match update functions.  Each receive function is a
pure function from its call context and the pre-state to the pair of
the post-state and an optional error; the post-state component records
the host state exactly as the Rust function leaves it at the point it
returns, so a failing path that performed no writes returns the
pre-state unchanged.  Parameter decoding failure is modelled by the
`Option` around a parameter (`none` = malformed input).
-/

namespace OverlayUsers

abbrev AccountAddress := Nat

abbrev ContractAddress := Nat × Nat

abbrev ProjectId := String

/-- A Concordium `Address`: either an account or a contract. -/
inductive Address where
  | account (a : AccountAddress)
  | contract (c : ContractAddress)
deriving DecidableEq, Repr

/-- The state of a single OVERLAY user (`struct UserState`). -/
structure UserState where
  is_curator : Bool
  is_validator : Bool
  curated_projects : List ProjectId
  validated_projects : List ProjectId
deriving DecidableEq, Repr

/-- The contract state (`struct State`): the user `StateMap` is an
association list looked up on the first matching key. -/
structure State where
  admin : AccountAddress
  project_contract_addr : ContractAddress
  user : List (AccountAddress × UserState)
  curator_list : List AccountAddress
  validator_list : List AccountAddress
deriving DecidableEq, Repr

/-- Custom error enum of the contract (`enum Error`). -/
inductive Error where
  | ParseParamsError
  | InvalidCaller
  | InvalidArgument
deriving DecidableEq, Repr

/-- On-chain reject code of `Error` as produced by the derived
`Reject` conversion: variant `i` maps to `-(i+1)`. -/
def Error.rejectCode : Error → Int
  | .ParseParamsError => -1
  | .InvalidCaller => -2
  | .InvalidArgument => -3

/-- Errors of the `upgrade` entrypoint (`ReceiveResult`, i.e. `Reject`):
the bare `ensure!` produces the default reject; parse errors and the
rejects propagated from `host.upgrade` / `host.invoke_contract_raw`
carry their own codes. -/
inductive UpgradeErr where
  | defaultReject
  | parseErr
  | upgradeFailed (code : Int)
  | invokeFailed (code : Int)
deriving DecidableEq, Repr

/-- On-chain reject code of an `upgrade` failure: `Reject::default()` is
`i32::MIN`, a `ParseError` converts to `i32::MIN + 2`, and propagated
host failures keep their own code. -/
def UpgradeErr.code : UpgradeErr → Int
  | .defaultReject => -2147483648
  | .parseErr => -2147483646
  | .upgradeFailed c => c
  | .invokeFailed c => c

/-- Host effects performed by `contract_upgrade`. -/
inductive Event where
  | replaceCode (m : Nat)
  | invokeSelf (entrypoint : String) (payload : List Nat)
deriving DecidableEq, Repr

/-- `TransferAdminParam`. -/
structure TransferAdminParam where
  admin : AccountAddress
deriving DecidableEq, Repr

/-- `AddProjectContractParam`. -/
structure AddProjectContractParam where
  project_contract_addr : ContractAddress
deriving DecidableEq, Repr

/-- `AddrParam`, shared by add/remove curator/validator and `view_user`. -/
structure AddrParam where
  addr : AccountAddress
deriving DecidableEq, Repr

/-- `CurateParam`. -/
structure CurateParam where
  addr : AccountAddress
  project_id : ProjectId
deriving DecidableEq, Repr

/-- `ValidateParam`. -/
structure ValidateParam where
  addr : AccountAddress
  project_id : ProjectId
deriving DecidableEq, Repr

/-- `UpgradeParam`: a module reference and an optional migration call
(entrypoint name, serialized parameter). -/
structure UpgradeParam where
  module : Nat
  migrate : Option (String × List Nat)
deriving DecidableEq, Repr

/-- `ViewAdminRes`. -/
structure ViewAdminRes where
  admin : AccountAddress
  project_contract_addr : ContractAddress
  curator_list : List AccountAddress
  validator_list : List AccountAddress
deriving DecidableEq, Repr

/-- First-match lookup in the user map (`StateMap::get`). -/
def lookupUser (m : List (AccountAddress × UserState)) (a : AccountAddress) :
    Option UserState :=
  match m with
  | [] => none
  | (k, v) :: rest => if k = a then some v else lookupUser rest a

/-- `entry(a).and_modify(f)` without insertion: update the first entry
with key `a` in place, do nothing when absent. -/
def modifyUser (m : List (AccountAddress × UserState)) (a : AccountAddress)
    (f : UserState → UserState) : List (AccountAddress × UserState) :=
  match m with
  | [] => []
  | (k, v) :: rest =>
      if k = a then (k, f v) :: rest else (k, v) :: modifyUser rest a f

/-- `entry(a).and_modify(f).or_insert_with(|| d)`: update the first
entry with key `a` in place, or append a fresh entry `(a, d)`. -/
def upsertUser (m : List (AccountAddress × UserState)) (a : AccountAddress)
    (f : UserState → UserState) (d : UserState) :
    List (AccountAddress × UserState) :=
  match m with
  | [] => [(a, d)]
  | (k, v) :: rest =>
      if k = a then (k, f v) :: rest else (k, v) :: upsertUser rest a f d

/-- `Vec::retain(|x| *x != a)`: remove every occurrence of `a`. -/
def removeAll (l : List AccountAddress) (a : AccountAddress) :
    List AccountAddress :=
  l.filter (fun x => decide (x ≠ a))

/-- `contract_init`: the init origin becomes admin, the project contract
address is the sentinel `<0,0>`, the user map and both lists are empty. -/
def contract_init (creator : AccountAddress) : State :=
  { admin := creator
    project_contract_addr := (0, 0)
    user := []
    curator_list := []
    validator_list := [] }

/-- `contract_transfer_admin`: parse, require `invoker == admin`, then
replace the admin. -/
def contract_transfer_admin (invoker : AccountAddress)
    (p : Option TransferAdminParam) (s : State) : State × Option Error :=
  match p with
  | none => (s, some .ParseParamsError)
  | some params =>
      if invoker = s.admin then
        ({ s with admin := params.admin }, none)
      else (s, some .InvalidCaller)

/-- `contract_add_project_contract`: parse, require `invoker == admin`,
then replace the project contract address. -/
def contract_add_project_contract (invoker : AccountAddress)
    (p : Option AddProjectContractParam) (s : State) : State × Option Error :=
  match p with
  | none => (s, some .ParseParamsError)
  | some params =>
      if invoker = s.admin then
        ({ s with project_contract_addr := params.project_contract_addr }, none)
      else (s, some .InvalidCaller)

/-- `contract_add_curator`: parse, require `invoker == admin`; set
`is_curator` in place or insert a fresh record, then append the address
to `curator_list` only when not already contained. -/
def contract_add_curator (invoker : AccountAddress) (p : Option AddrParam)
    (s : State) : State × Option Error :=
  match p with
  | none => (s, some .ParseParamsError)
  | some params =>
      if invoker = s.admin then
        ({ s with
            user := upsertUser s.user params.addr
              (fun u => { u with is_curator := true })
              { is_curator := true, is_validator := false
                curated_projects := [], validated_projects := [] }
            curator_list :=
              if params.addr ∈ s.curator_list then s.curator_list
              else s.curator_list ++ [params.addr] }, none)
      else (s, some .InvalidCaller)

/-- `contract_remove_curator`: parse, require `invoker == admin`; clear
`is_curator` in place when the record exists (no insertion), then
remove the address from `curator_list` by value. -/
def contract_remove_curator (invoker : AccountAddress) (p : Option AddrParam)
    (s : State) : State × Option Error :=
  match p with
  | none => (s, some .ParseParamsError)
  | some params =>
      if invoker = s.admin then
        ({ s with
            user := modifyUser s.user params.addr
              (fun u => { u with is_curator := false })
            curator_list := removeAll s.curator_list params.addr }, none)
      else (s, some .InvalidCaller)

/-- `contract_add_validator`: symmetric to `contract_add_curator` over
`is_validator` and `validator_list`. -/
def contract_add_validator (invoker : AccountAddress) (p : Option AddrParam)
    (s : State) : State × Option Error :=
  match p with
  | none => (s, some .ParseParamsError)
  | some params =>
      if invoker = s.admin then
        ({ s with
            user := upsertUser s.user params.addr
              (fun u => { u with is_validator := true })
              { is_curator := false, is_validator := true
                curated_projects := [], validated_projects := [] }
            validator_list :=
              if params.addr ∈ s.validator_list then s.validator_list
              else s.validator_list ++ [params.addr] }, none)
      else (s, some .InvalidCaller)

/-- `contract_remove_validator`: symmetric to `contract_remove_curator`. -/
def contract_remove_validator (invoker : AccountAddress) (p : Option AddrParam)
    (s : State) : State × Option Error :=
  match p with
  | none => (s, some .ParseParamsError)
  | some params =>
      if invoker = s.admin then
        ({ s with
            user := modifyUser s.user params.addr
              (fun u => { u with is_validator := false })
            validator_list := removeAll s.validator_list params.addr }, none)
      else (s, some .InvalidCaller)

/-- `contract_curate`: parse, require the immediate sender to be the
project contract; reject a missing record and a non-curator with
`InvalidArgument`; append the project id only when not already present. -/
def contract_curate (sender : Address) (p : Option CurateParam) (s : State) :
    State × Option Error :=
  match p with
  | none => (s, some .ParseParamsError)
  | some params =>
      if sender = Address.contract s.project_contract_addr then
        match lookupUser s.user params.addr with
        | none => (s, some .InvalidArgument)
        | some u =>
            if u.is_curator then
              ({ s with
                  user := modifyUser s.user params.addr
                    (fun v =>
                      { v with
                          curated_projects :=
                            if params.project_id ∈ v.curated_projects then
                              v.curated_projects
                            else v.curated_projects ++ [params.project_id] }) },
               none)
            else (s, some .InvalidArgument)
      else (s, some .InvalidCaller)

/-- `contract_validate`: symmetric to `contract_curate` over
`is_validator` and `validated_projects`. -/
def contract_validate (sender : Address) (p : Option ValidateParam) (s : State) :
    State × Option Error :=
  match p with
  | none => (s, some .ParseParamsError)
  | some params =>
      if sender = Address.contract s.project_contract_addr then
        match lookupUser s.user params.addr with
        | none => (s, some .InvalidArgument)
        | some u =>
            if u.is_validator then
              ({ s with
                  user := modifyUser s.user params.addr
                    (fun v =>
                      { v with
                          validated_projects :=
                            if params.project_id ∈ v.validated_projects then
                              v.validated_projects
                            else v.validated_projects ++ [params.project_id] }) },
               none)
            else (s, some .InvalidArgument)
      else (s, some .InvalidCaller)

/-- `contract_upgrade`: require the immediate sender to match the owner
account (bare `ensure!`, hence the default reject) before parsing; then
`host.upgrade` and, when a migration call is supplied, one self
invocation, each propagating its failure.  Host outcomes are injected:
`hUp` / `hInv` are `none` on success and `some code` on failure;
`migrateEffect` is the opaque effect of a successful migration call on
the contract state (a failing call is rolled back by the host).  The
second component lists the host effects that were attempted, in order. -/
def contract_upgrade (sender : Address) (owner : AccountAddress)
    (p : Option UpgradeParam) (hUp hInv : Option Int)
    (migrateEffect : State → State) (s : State) :
    State × List Event × Option UpgradeErr :=
  if sender = Address.account owner then
    match p with
    | none => (s, [], some .parseErr)
    | some params =>
        match hUp with
        | some c => (s, [Event.replaceCode params.module], some (.upgradeFailed c))
        | none =>
            match params.migrate with
            | none => (s, [Event.replaceCode params.module], none)
            | some (ep, par) =>
                match hInv with
                | none =>
                    (migrateEffect s,
                     [Event.replaceCode params.module, Event.invokeSelf ep par],
                     none)
                | some c =>
                    (s,
                     [Event.replaceCode params.module, Event.invokeSelf ep par],
                     some (.invokeFailed c))
  else (s, [], some .defaultReject)

/-- `contract_view_admin`: require `invoker == admin`, return a snapshot. -/
def contract_view_admin (invoker : AccountAddress) (s : State) :
    Except Error ViewAdminRes :=
  if invoker = s.admin then
    Except.ok
      { admin := s.admin
        project_contract_addr := s.project_contract_addr
        curator_list := s.curator_list
        validator_list := s.validator_list }
  else Except.error .InvalidCaller

/-- `contract_view_user`: unrestricted; return the stored record or the
synthesized default when absent. -/
def contract_view_user (p : Option AddrParam) (s : State) :
    Except Error UserState :=
  match p with
  | none => Except.error .ParseParamsError
  | some params =>
      match lookupUser s.user params.addr with
      | some u => Except.ok u
      | none =>
          Except.ok
            { is_curator := false, is_validator := false
              curated_projects := [], validated_projects := [] }

/-- `contract_view_users`: unrestricted; return all pairs. -/
def contract_view_users (s : State) :
    Except Error (List (AccountAddress × UserState)) :=
  Except.ok s.user

/-- One state transition of the registry by any of the mutating
entrypoints, with arbitrary call context and parameters.  The
post-state is the state component the entrypoint returns (on failure
that is the unchanged pre-state). -/
inductive Step : State → State → Prop where
  | transferAdmin (inv : AccountAddress) (p : Option TransferAdminParam)
      (s : State) : Step s (contract_transfer_admin inv p s).1
  | addProjectContract (inv : AccountAddress)
      (p : Option AddProjectContractParam) (s : State) :
      Step s (contract_add_project_contract inv p s).1
  | addCurator (inv : AccountAddress) (p : Option AddrParam) (s : State) :
      Step s (contract_add_curator inv p s).1
  | removeCurator (inv : AccountAddress) (p : Option AddrParam) (s : State) :
      Step s (contract_remove_curator inv p s).1
  | addValidator (inv : AccountAddress) (p : Option AddrParam) (s : State) :
      Step s (contract_add_validator inv p s).1
  | removeValidator (inv : AccountAddress) (p : Option AddrParam) (s : State) :
      Step s (contract_remove_validator inv p s).1
  | curate (sender : Address) (p : Option CurateParam) (s : State) :
      Step s (contract_curate sender p s).1
  | validate (sender : Address) (p : Option ValidateParam) (s : State) :
      Step s (contract_validate sender p s).1

/-- States reachable from `contract_init` by the mutating entrypoints. -/
inductive Reachable : State → Prop where
  | init (creator : AccountAddress) : Reachable (contract_init creator)
  | step {s s' : State} : Reachable s → Step s s' → Reachable s'

/-- Membership in a denormalized list is equivalent to the flag being
set in the user map, and the list has no duplicates. -/
def ListMatchesFlag (m : List (AccountAddress × UserState))
    (l : List AccountAddress) (flag : UserState → Bool) : Prop :=
  (∀ a, a ∈ l ↔ ∃ u, lookupUser m a = some u ∧ flag u = true) ∧ l.Nodup

/-- The list/flag consistency invariant for both roles. -/
def Inv (s : State) : Prop :=
  ListMatchesFlag s.user s.curator_list (fun u => u.is_curator) ∧
  ListMatchesFlag s.user s.validator_list (fun u => u.is_validator)

theorem lookupUser_upsert_self (m : List (AccountAddress × UserState))
    (a : AccountAddress) (f : UserState → UserState) (d : UserState) :
    lookupUser (upsertUser m a f d) a =
      some (match lookupUser m a with | some u => f u | none => d) := by
  induction m with
  | nil => simp [upsertUser, lookupUser]
  | cons kv rest ih =>
      obtain ⟨k, v⟩ := kv
      by_cases h : k = a <;> simp [upsertUser, lookupUser, h, ih]

theorem lookupUser_upsert_other (m : List (AccountAddress × UserState))
    (a b : AccountAddress) (f : UserState → UserState) (d : UserState)
    (hne : b ≠ a) :
    lookupUser (upsertUser m a f d) b = lookupUser m b := by
  induction m with
  | nil => simp [upsertUser, lookupUser, Ne.symm hne]
  | cons kv rest ih =>
      obtain ⟨k, v⟩ := kv
      by_cases h : k = a
      · subst h
        simp [upsertUser, lookupUser, Ne.symm hne]
      · simp [upsertUser, lookupUser, h, ih]

theorem lookupUser_modify_self (m : List (AccountAddress × UserState))
    (a : AccountAddress) (f : UserState → UserState) :
    lookupUser (modifyUser m a f) a = (lookupUser m a).map f := by
  induction m with
  | nil => simp [modifyUser, lookupUser]
  | cons kv rest ih =>
      obtain ⟨k, v⟩ := kv
      by_cases h : k = a <;> simp [modifyUser, lookupUser, h, ih]

theorem lookupUser_modify_other (m : List (AccountAddress × UserState))
    (a b : AccountAddress) (f : UserState → UserState) (hne : b ≠ a) :
    lookupUser (modifyUser m a f) b = lookupUser m b := by
  induction m with
  | nil => simp [modifyUser]
  | cons kv rest ih =>
      obtain ⟨k, v⟩ := kv
      by_cases h : k = a
      · subst h
        simp [modifyUser, lookupUser, Ne.symm hne]
      · simp [modifyUser, lookupUser, h, ih]

theorem upsertUser_upsertUser (m : List (AccountAddress × UserState))
    (a : AccountAddress) (f : UserState → UserState) (d : UserState)
    (hff : ∀ v, f (f v) = f v) (hfd : f d = d) :
    upsertUser (upsertUser m a f d) a f d = upsertUser m a f d := by
  induction m with
  | nil => simp [upsertUser, hfd]
  | cons kv rest ih =>
      obtain ⟨k, v⟩ := kv
      by_cases h : k = a <;> simp [upsertUser, h, hff, ih]

theorem modifyUser_modifyUser (m : List (AccountAddress × UserState))
    (a : AccountAddress) (f : UserState → UserState)
    (hff : ∀ v, f (f v) = f v) :
    modifyUser (modifyUser m a f) a f = modifyUser m a f := by
  induction m with
  | nil => simp [modifyUser]
  | cons kv rest ih =>
      obtain ⟨k, v⟩ := kv
      by_cases h : k = a <;> simp [modifyUser, h, hff, ih]

theorem mem_removeAll (l : List AccountAddress) (a b : AccountAddress) :
    b ∈ removeAll l a ↔ b ∈ l ∧ b ≠ a := by
  simp [removeAll, List.mem_filter]

theorem not_mem_removeAll_self (l : List AccountAddress) (a : AccountAddress) :
    a ∉ removeAll l a := by
  simp [mem_removeAll]

theorem removeAll_removeAll (l : List AccountAddress) (a : AccountAddress) :
    removeAll (removeAll l a) a = removeAll l a := by
  simp [removeAll, List.filter_filter]

theorem nodup_removeAll (l : List AccountAddress) (a : AccountAddress)
    (h : l.Nodup) : (removeAll l a).Nodup :=
  h.filter _

theorem listMatchesFlag_upsert_set
    (m : List (AccountAddress × UserState)) (l : List AccountAddress)
    (a : AccountAddress) (f : UserState → UserState) (d : UserState)
    (flag : UserState → Bool) (h : ListMatchesFlag m l flag)
    (hset : ∀ u, flag (f u) = true) (hd : flag d = true) :
    ListMatchesFlag (upsertUser m a f d)
      (if a ∈ l then l else l ++ [a]) flag := by
  obtain ⟨hmem, hnd⟩ := h
  constructor
  · intro b
    by_cases hb : b = a
    · subst hb
      constructor
      · intro _
        refine ⟨_, lookupUser_upsert_self m b f d, ?_⟩
        cases hl : lookupUser m b <;> simp [hl, hset, hd]
      · intro _
        by_cases hal : b ∈ l <;> simp [hal]
    · rw [lookupUser_upsert_other m a b f d hb]
      by_cases hal : a ∈ l <;> simp [hal, hb, hmem b]
  · by_cases hal : a ∈ l
    · simpa [hal]
    · simp only [hal, if_false]
      refine List.Nodup.append hnd (List.nodup_singleton a) ?_
      intro x hx hxa
      simp at hxa
      exact hal (hxa ▸ hx)

theorem listMatchesFlag_upsert_preserve
    (m : List (AccountAddress × UserState)) (l : List AccountAddress)
    (a : AccountAddress) (f : UserState → UserState) (d : UserState)
    (flag : UserState → Bool) (h : ListMatchesFlag m l flag)
    (hpres : ∀ u, flag (f u) = flag u) (hd : flag d = false) :
    ListMatchesFlag (upsertUser m a f d) l flag := by
  obtain ⟨hmem, hnd⟩ := h
  refine ⟨?_, hnd⟩
  intro b
  by_cases hb : b = a
  · subst hb
    rw [lookupUser_upsert_self m b f d, hmem b]
    cases hl : lookupUser m b <;> simp [hl, hpres, hd]
  · rw [lookupUser_upsert_other m a b f d hb]
    exact hmem b

theorem listMatchesFlag_modify_clear
    (m : List (AccountAddress × UserState)) (l : List AccountAddress)
    (a : AccountAddress) (f : UserState → UserState)
    (flag : UserState → Bool) (h : ListMatchesFlag m l flag)
    (hclear : ∀ u, flag (f u) = false) :
    ListMatchesFlag (modifyUser m a f) (removeAll l a) flag := by
  obtain ⟨hmem, hnd⟩ := h
  refine ⟨?_, nodup_removeAll l a hnd⟩
  intro b
  by_cases hb : b = a
  · subst hb
    rw [lookupUser_modify_self m b f]
    cases hl : lookupUser m b <;>
      simp [hl, hclear, not_mem_removeAll_self l b]
  · rw [lookupUser_modify_other m a b f hb, mem_removeAll l a b]
    simp [hb, hmem b]

theorem listMatchesFlag_modify_preserve
    (m : List (AccountAddress × UserState)) (l : List AccountAddress)
    (a : AccountAddress) (f : UserState → UserState)
    (flag : UserState → Bool) (h : ListMatchesFlag m l flag)
    (hpres : ∀ u, flag (f u) = flag u) :
    ListMatchesFlag (modifyUser m a f) l flag := by
  obtain ⟨hmem, hnd⟩ := h
  refine ⟨?_, hnd⟩
  intro b
  by_cases hb : b = a
  · subst hb
    rw [lookupUser_modify_self m b f, hmem b]
    cases hl : lookupUser m b <;> simp [hl, hpres]
  · rw [lookupUser_modify_other m a b f hb]
    exact hmem b

theorem inv_init (creator : AccountAddress) : Inv (contract_init creator) := by
  refine ⟨⟨?_, List.nodup_nil⟩, ⟨?_, List.nodup_nil⟩⟩ <;>
    intro a <;> simp [contract_init, lookupUser]

theorem inv_step {s s' : State} (hInv : Inv s) (hstep : Step s s') : Inv s' := by
  obtain ⟨hc, hv⟩ := hInv
  cases hstep with
  | transferAdmin inv p s =>
      match p with
      | none => exact ⟨hc, hv⟩
      | some q =>
          by_cases h : inv = s.admin <;>
            simp [contract_transfer_admin, h] <;> exact ⟨hc, hv⟩
  | addProjectContract inv p s =>
      match p with
      | none => exact ⟨hc, hv⟩
      | some q =>
          by_cases h : inv = s.admin <;>
            simp [contract_add_project_contract, h] <;> exact ⟨hc, hv⟩
  | addCurator inv p s =>
      match p with
      | none => exact ⟨hc, hv⟩
      | some q =>
          by_cases h : inv = s.admin
          · simp only [contract_add_curator, h, if_true]
            exact ⟨listMatchesFlag_upsert_set _ _ _ _ _ _ hc
                (fun u => rfl) rfl,
              listMatchesFlag_upsert_preserve _ _ _ _ _ _ hv
                (fun u => rfl) rfl⟩
          · simp [contract_add_curator, h]
            exact ⟨hc, hv⟩
  | removeCurator inv p s =>
      match p with
      | none => exact ⟨hc, hv⟩
      | some q =>
          by_cases h : inv = s.admin
          · simp only [contract_remove_curator, h, if_true]
            exact ⟨listMatchesFlag_modify_clear _ _ _ _ _ hc (fun u => rfl),
              listMatchesFlag_modify_preserve _ _ _ _ _ hv (fun u => rfl)⟩
          · simp [contract_remove_curator, h]
            exact ⟨hc, hv⟩
  | addValidator inv p s =>
      match p with
      | none => exact ⟨hc, hv⟩
      | some q =>
          by_cases h : inv = s.admin
          · simp only [contract_add_validator, h, if_true]
            exact ⟨listMatchesFlag_upsert_preserve _ _ _ _ _ _ hc
                (fun u => rfl) rfl,
              listMatchesFlag_upsert_set _ _ _ _ _ _ hv
                (fun u => rfl) rfl⟩
          · simp [contract_add_validator, h]
            exact ⟨hc, hv⟩
  | removeValidator inv p s =>
      match p with
      | none => exact ⟨hc, hv⟩
      | some q =>
          by_cases h : inv = s.admin
          · simp only [contract_remove_validator, h, if_true]
            exact ⟨listMatchesFlag_modify_preserve _ _ _ _ _ hc (fun u => rfl),
              listMatchesFlag_modify_clear _ _ _ _ _ hv (fun u => rfl)⟩
          · simp [contract_remove_validator, h]
            exact ⟨hc, hv⟩
  | curate sender p s =>
      match p with
      | none => exact ⟨hc, hv⟩
      | some q =>
          by_cases h : sender = Address.contract s.project_contract_addr
          · simp only [contract_curate, h, if_true]
            cases hl : lookupUser s.user q.addr with
            | none => exact ⟨hc, hv⟩
            | some u =>
                by_cases hcur : u.is_curator
                · simp only [hcur, if_true]
                  exact ⟨listMatchesFlag_modify_preserve _ _ _ _ _ hc
                      (fun u => rfl),
                    listMatchesFlag_modify_preserve _ _ _ _ _ hv
                      (fun u => rfl)⟩
                · simp only [hcur, if_false]
                  exact ⟨hc, hv⟩
          · simp [contract_curate, h]
            exact ⟨hc, hv⟩
  | validate sender p s =>
      match p with
      | none => exact ⟨hc, hv⟩
      | some q =>
          by_cases h : sender = Address.contract s.project_contract_addr
          · simp only [contract_validate, h, if_true]
            cases hl : lookupUser s.user q.addr with
            | none => exact ⟨hc, hv⟩
            | some u =>
                by_cases hval : u.is_validator
                · simp only [hval, if_true]
                  exact ⟨listMatchesFlag_modify_preserve _ _ _ _ _ hc
                      (fun u => rfl),
                    listMatchesFlag_modify_preserve _ _ _ _ _ hv
                      (fun u => rfl)⟩
                · simp only [hval, if_false]
                  exact ⟨hc, hv⟩
          · simp [contract_validate, h]
            exact ⟨hc, hv⟩

theorem reachable_inv {s : State} (h : Reachable s) : Inv s := by
  induction h with
  | init creator => exact inv_init creator
  | step _ hstep ih => exact inv_step ih hstep

theorem UserState.set_curator_eq_self (u : UserState) (h : u.is_curator = true) :
    { u with is_curator := true } = u := by
  cases u
  simp_all

theorem UserState.set_validator_eq_self (u : UserState)
    (h : u.is_validator = true) : { u with is_validator := true } = u := by
  cases u
  simp_all

/-- C2: in every state reachable from `contract_init` by the mutating
entrypoints, an account is in `curator_list` iff its user record exists
with `is_curator = true` and the list has no duplicates, symmetrically
for `validator_list` and `is_validator`; moreover every single step of
any entrypoint preserves this invariant. -/
theorem reachable_list_flag_invariant :
    (∀ s : State, Reachable s → Inv s) ∧
    (∀ s s' : State, Inv s → Step s s' → Inv s') :=
  ⟨fun _ h => reachable_inv h, fun _ _ hInv hstep => inv_step hInv hstep⟩

theorem reachable_list_flag_invariant_witness : Inv (contract_init 0) :=
  reachable_list_flag_invariant.1 (contract_init 0) (Reachable.init 0)

/-- C9: in the state produced by `contract_init`, the authority check of
`curate` and `validate` accepts the sentinel contract address `<0,0>`:
a call whose sender is that contract — never designated by the admin —
does not fail with `InvalidCaller` (it fails with `InvalidArgument`
because the user table is empty). -/
theorem sentinel_authority_accepted (creator a : AccountAddress)
    (pid : ProjectId) :
    contract_curate (Address.contract (0, 0)) (some ⟨a, pid⟩)
        (contract_init creator)
      = (contract_init creator, some Error.InvalidArgument) ∧
    (contract_curate (Address.contract (0, 0)) (some ⟨a, pid⟩)
        (contract_init creator)).2 ≠ some Error.InvalidCaller ∧
    contract_validate (Address.contract (0, 0)) (some ⟨a, pid⟩)
        (contract_init creator)
      = (contract_init creator, some Error.InvalidArgument) ∧
    (contract_validate (Address.contract (0, 0)) (some ⟨a, pid⟩)
        (contract_init creator)).2 ≠ some Error.InvalidCaller := by
  refine ⟨?_, ?_, ?_, ?_⟩ <;>
    simp [contract_curate, contract_validate, contract_init, lookupUser]

/-- C1: `curate` fails with `InvalidCaller` whenever the immediate
sender is not the registered project contract address; otherwise it
fails with `InvalidArgument` when `addr` has no record and when the
record's `is_curator` flag is false, and otherwise succeeds, appending
the project id to `curated_projects` only when not already present, so
a repeated call with the same project id leaves the state unchanged;
symmetrically for `validate` over `is_validator`/`validated_projects`. -/
theorem curate_validate_strict_spec (s : State) (sender : Address)
    (a : AccountAddress) (pid : ProjectId) :
    (sender ≠ Address.contract s.project_contract_addr →
      contract_curate sender (some ⟨a, pid⟩) s
        = (s, some Error.InvalidCaller) ∧
      contract_validate sender (some ⟨a, pid⟩) s
        = (s, some Error.InvalidCaller)) ∧
    (sender = Address.contract s.project_contract_addr →
      (lookupUser s.user a = none →
        contract_curate sender (some ⟨a, pid⟩) s
          = (s, some Error.InvalidArgument) ∧
        contract_validate sender (some ⟨a, pid⟩) s
          = (s, some Error.InvalidArgument)) ∧
      (∀ u, lookupUser s.user a = some u →
        (u.is_curator = false →
          contract_curate sender (some ⟨a, pid⟩) s
            = (s, some Error.InvalidArgument)) ∧
        (u.is_curator = true →
          contract_curate sender (some ⟨a, pid⟩) s =
            ({ s with
                user := modifyUser s.user a (fun v =>
                  { v with
                      curated_projects :=
                        if pid ∈ v.curated_projects then v.curated_projects
                        else v.curated_projects ++ [pid] }) }, none) ∧
          contract_curate sender (some ⟨a, pid⟩)
              (contract_curate sender (some ⟨a, pid⟩) s).1
            = ((contract_curate sender (some ⟨a, pid⟩) s).1, none)) ∧
        (u.is_validator = false →
          contract_validate sender (some ⟨a, pid⟩) s
            = (s, some Error.InvalidArgument)) ∧
        (u.is_validator = true →
          contract_validate sender (some ⟨a, pid⟩) s =
            ({ s with
                user := modifyUser s.user a (fun v =>
                  { v with
                      validated_projects :=
                        if pid ∈ v.validated_projects then v.validated_projects
                        else v.validated_projects ++ [pid] }) }, none) ∧
          contract_validate sender (some ⟨a, pid⟩)
              (contract_validate sender (some ⟨a, pid⟩) s).1
            = ((contract_validate sender (some ⟨a, pid⟩) s).1, none)))) := by
  constructor
  · intro hs
    constructor <;> simp [contract_curate, contract_validate, hs]
  · intro hs
    constructor
    · intro hl
      constructor <;> simp [contract_curate, contract_validate, hs, hl]
    · intro u hl
      refine ⟨?_, ?_, ?_, ?_⟩
      · intro hcur
        simp [contract_curate, hs, hl, hcur]
      · intro hcur
        have h1 : contract_curate sender (some ⟨a, pid⟩) s =
            ({ s with
                user := modifyUser s.user a (fun v =>
                  { v with
                      curated_projects :=
                        if pid ∈ v.curated_projects then v.curated_projects
                        else v.curated_projects ++ [pid] }) }, none) := by
          simp [contract_curate, hs, hl, hcur]
        refine ⟨h1, ?_⟩
        rw [h1]
        have hidem := modifyUser_modifyUser s.user a
          (fun v =>
            { v with
                curated_projects :=
                  if pid ∈ v.curated_projects then v.curated_projects
                  else v.curated_projects ++ [pid] })
          (fun v => by by_cases hmem : pid ∈ v.curated_projects <;> simp [hmem])
        have h2 := lookupUser_modify_self s.user a
          (fun v =>
            { v with
                curated_projects :=
                  if pid ∈ v.curated_projects then v.curated_projects
                  else v.curated_projects ++ [pid] })
        rw [hl] at h2
        simp only [Option.map_some'] at h2
        simp [contract_curate, hs, h2, hcur, hidem]
      · intro hval
        simp [contract_validate, hs, hl, hval]
      · intro hval
        have h1 : contract_validate sender (some ⟨a, pid⟩) s =
            ({ s with
                user := modifyUser s.user a (fun v =>
                  { v with
                      validated_projects :=
                        if pid ∈ v.validated_projects then v.validated_projects
                        else v.validated_projects ++ [pid] }) }, none) := by
          simp [contract_validate, hs, hl, hval]
        refine ⟨h1, ?_⟩
        rw [h1]
        have hidem := modifyUser_modifyUser s.user a
          (fun v =>
            { v with
                validated_projects :=
                  if pid ∈ v.validated_projects then v.validated_projects
                  else v.validated_projects ++ [pid] })
          (fun v => by by_cases hmem : pid ∈ v.validated_projects <;> simp [hmem])
        have h2 := lookupUser_modify_self s.user a
          (fun v =>
            { v with
                validated_projects :=
                  if pid ∈ v.validated_projects then v.validated_projects
                  else v.validated_projects ++ [pid] })
        rw [hl] at h2
        simp only [Option.map_some'] at h2
        simp [contract_validate, hs, h2, hval, hidem]

theorem curate_validate_strict_spec_witness :
    contract_curate (Address.account 5) (some ⟨7, "p1"⟩)
        { admin := 0, project_contract_addr := (1, 1), user := []
          curator_list := [], validator_list := [] }
      = ({ admin := 0, project_contract_addr := (1, 1), user := []
           curator_list := [], validator_list := [] },
         some Error.InvalidCaller) :=
  ((curate_validate_strict_spec _ (Address.account 5) 7 "p1").1
    (by decide)).1

/-- C8: `view_user` never fails on a missing key: for any caller it
returns a copy of the stored record when one exists, and the
synthesized default `{false, false, [], []}` when the address has no
record — in particular for every address in the freshly initialized
state. -/
theorem view_user_total_spec (s : State) (a : AccountAddress) :
    (∀ u, lookupUser s.user a = some u →
      contract_view_user (some ⟨a⟩) s = Except.ok u) ∧
    (lookupUser s.user a = none →
      contract_view_user (some ⟨a⟩) s =
        Except.ok
          { is_curator := false, is_validator := false
            curated_projects := [], validated_projects := [] }) ∧
    (∀ creator, contract_view_user (some ⟨a⟩) (contract_init creator) =
        Except.ok
          { is_curator := false, is_validator := false
            curated_projects := [], validated_projects := [] }) ∧
    (∃ u, contract_view_user (some ⟨a⟩) s = Except.ok u) := by
  refine ⟨?_, ?_, ?_, ?_⟩
  · intro u hl
    simp [contract_view_user, hl]
  · intro hl
    simp [contract_view_user, hl]
  · intro creator
    simp [contract_view_user, contract_init, lookupUser]
  · cases hl : lookupUser s.user a with
    | none =>
        exact ⟨{ is_curator := false, is_validator := false
                 curated_projects := [], validated_projects := [] },
          by simp [contract_view_user, hl]⟩
    | some u =>
        exact ⟨u, by simp [contract_view_user, hl]⟩

theorem view_user_total_spec_witness :
    contract_view_user (some ⟨3⟩)
        { admin := 0, project_contract_addr := (0, 0), user := []
          curator_list := [], validator_list := [] }
      = Except.ok
          { is_curator := false, is_validator := false
            curated_projects := [], validated_projects := [] } :=
  (view_user_total_spec
      { admin := 0, project_contract_addr := (0, 0), user := []
        curator_list := [], validator_list := [] } 3).2.1 (by decide)

/-- C3: whenever an entrypoint returns a failure (`InvalidCaller`,
`InvalidArgument`, a parse failure, or a propagated upgrade failure),
the state it leaves behind equals the pre-state: no failure path
performs a partial mutation.  The view entrypoints take the host state
immutably and cannot write at all. -/
theorem failure_preserves_state (s : State) (inv owner : AccountAddress)
    (sender scur sval : Address) (pT : Option TransferAdminParam)
    (pP : Option AddProjectContractParam) (pA pR pAV pRV : Option AddrParam)
    (pC : Option CurateParam) (pV : Option ValidateParam)
    (pU : Option UpgradeParam) (hUp hInv : Option Int)
    (mig : State → State) :
    ((contract_transfer_admin inv pT s).2.isSome →
      (contract_transfer_admin inv pT s).1 = s) ∧
    ((contract_add_project_contract inv pP s).2.isSome →
      (contract_add_project_contract inv pP s).1 = s) ∧
    ((contract_add_curator inv pA s).2.isSome →
      (contract_add_curator inv pA s).1 = s) ∧
    ((contract_remove_curator inv pR s).2.isSome →
      (contract_remove_curator inv pR s).1 = s) ∧
    ((contract_add_validator inv pAV s).2.isSome →
      (contract_add_validator inv pAV s).1 = s) ∧
    ((contract_remove_validator inv pRV s).2.isSome →
      (contract_remove_validator inv pRV s).1 = s) ∧
    ((contract_curate scur pC s).2.isSome →
      (contract_curate scur pC s).1 = s) ∧
    ((contract_validate sval pV s).2.isSome →
      (contract_validate sval pV s).1 = s) ∧
    ((contract_upgrade sender owner pU hUp hInv mig s).2.2.isSome →
      (contract_upgrade sender owner pU hUp hInv mig s).1 = s) := by
  refine ⟨?_, ?_, ?_, ?_, ?_, ?_, ?_, ?_, ?_⟩
  · match pT with
    | none => intro _; rfl
    | some q =>
        by_cases h : inv = s.admin <;> simp [contract_transfer_admin, h]
  · match pP with
    | none => intro _; rfl
    | some q =>
        by_cases h : inv = s.admin <;>
          simp [contract_add_project_contract, h]
  · match pA with
    | none => intro _; rfl
    | some q =>
        by_cases h : inv = s.admin <;> simp [contract_add_curator, h]
  · match pR with
    | none => intro _; rfl
    | some q =>
        by_cases h : inv = s.admin <;> simp [contract_remove_curator, h]
  · match pAV with
    | none => intro _; rfl
    | some q =>
        by_cases h : inv = s.admin <;> simp [contract_add_validator, h]
  · match pRV with
    | none => intro _; rfl
    | some q =>
        by_cases h : inv = s.admin <;> simp [contract_remove_validator, h]
  · match pC with
    | none => intro _; rfl
    | some q =>
        by_cases h : scur = Address.contract s.project_contract_addr
        · cases hl : lookupUser s.user q.addr with
          | none => simp [contract_curate, h, hl]
          | some u =>
              by_cases hc : u.is_curator <;> simp [contract_curate, h, hl, hc]
        · simp [contract_curate, h]
  · match pV with
    | none => intro _; rfl
    | some q =>
        by_cases h : sval = Address.contract s.project_contract_addr
        · cases hl : lookupUser s.user q.addr with
          | none => simp [contract_validate, h, hl]
          | some u =>
              by_cases hc : u.is_validator <;>
                simp [contract_validate, h, hl, hc]
        · simp [contract_validate, h]
  · by_cases h : sender = Address.account owner
    · match pU with
      | none => simp [contract_upgrade, h]
      | some q =>
          cases hUp with
          | some c => simp [contract_upgrade, h]
          | none =>
              cases hm : q.migrate with
              | none => simp [contract_upgrade, h, hm]
              | some pr =>
                  obtain ⟨ep, par⟩ := pr
                  cases hInv with
                  | none => simp [contract_upgrade, h, hm]
                  | some c => simp [contract_upgrade, h, hm]
    · simp [contract_upgrade, h]

theorem failure_preserves_state_witness :
    (contract_transfer_admin 1 (some ⟨2⟩)
        { admin := 0, project_contract_addr := (0, 0), user := []
          curator_list := [], validator_list := [] }).1
      = { admin := 0, project_contract_addr := (0, 0), user := []
          curator_list := [], validator_list := [] } :=
  (failure_preserves_state
      { admin := 0, project_contract_addr := (0, 0), user := []
        curator_list := [], validator_list := [] }
      1 0 (Address.account 1) (Address.account 1) (Address.account 1)
      (some ⟨2⟩) none none none none none none none none none none
      id).1 (by decide)

/-- C4: `add_curator` invoked by the admin succeeds; afterwards
`view_user` reports `is_curator = true` and the address appears exactly
once in `curator_list` (provided it appeared at most once before, as
every reachable state guarantees); a repeated call is a no-op; a
missing record is inserted as `{true, false, [], []}`, and an existing
record only has its `is_curator` flag set, in place. -/
theorem add_curator_idempotent_membership (s : State) (a : AccountAddress)
    (hcount : s.curator_list.count a ≤ 1) :
    (contract_add_curator s.admin (some ⟨a⟩) s).2 = none ∧
    (∃ u, contract_view_user (some ⟨a⟩)
        (contract_add_curator s.admin (some ⟨a⟩) s).1 = Except.ok u ∧
      u.is_curator = true) ∧
    (contract_add_curator s.admin (some ⟨a⟩) s).1.curator_list.count a = 1 ∧
    contract_add_curator s.admin (some ⟨a⟩)
        (contract_add_curator s.admin (some ⟨a⟩) s).1
      = ((contract_add_curator s.admin (some ⟨a⟩) s).1, none) ∧
    (lookupUser s.user a = none →
      lookupUser (contract_add_curator s.admin (some ⟨a⟩) s).1.user a =
        some { is_curator := true, is_validator := false
               curated_projects := [], validated_projects := [] }) ∧
    (∀ u, lookupUser s.user a = some u →
      lookupUser (contract_add_curator s.admin (some ⟨a⟩) s).1.user a =
        some { u with is_curator := true }) := by
  have h1 : contract_add_curator s.admin (some ⟨a⟩) s =
      ({ s with
          user := upsertUser s.user a (fun u => { u with is_curator := true })
            { is_curator := true, is_validator := false
              curated_projects := [], validated_projects := [] }
          curator_list :=
            if a ∈ s.curator_list then s.curator_list
            else s.curator_list ++ [a] }, none) := by
    simp [contract_add_curator]
  have hself := lookupUser_upsert_self s.user a
    (fun u => { u with is_curator := true })
    { is_curator := true, is_validator := false
      curated_projects := [], validated_projects := [] }
  refine ⟨by rw [h1], ?_, ?_, ?_, ?_, ?_⟩
  · rw [h1]
    refine ⟨match lookupUser s.user a with
      | some u => { u with is_curator := true }
      | none =>
          { is_curator := true, is_validator := false
            curated_projects := [], validated_projects := [] }, ?_, ?_⟩
    · simp only [contract_view_user]
      rw [hself]
    · cases hl : lookupUser s.user a <;> simp [hl]
  · rw [h1]
    by_cases hmem : a ∈ s.curator_list
    · have hpos : 0 < s.curator_list.count a := List.count_pos_iff.mpr hmem
      simp only [hmem, if_true]
      omega
    · have hz : s.curator_list.count a = 0 :=
        List.count_eq_zero_of_not_mem hmem
      simp [hmem, hz]
  · rw [h1]
    simp only [contract_add_curator]
    have hidem := upsertUser_upsertUser s.user a
      (fun u => { u with is_curator := true })
      { is_curator := true, is_validator := false
        curated_projects := [], validated_projects := [] }
      (fun v => rfl) rfl
    have hmem1 : a ∈ (if a ∈ s.curator_list then s.curator_list
        else s.curator_list ++ [a]) := by
      by_cases hmem : a ∈ s.curator_list <;> simp [hmem]
    simp [hidem, hmem1]
  · intro hl
    rw [h1, hself, hl]
  · intro u hl
    rw [h1, hself, hl]

theorem add_curator_idempotent_membership_witness :
    (contract_add_curator 0 (some ⟨4⟩)
        { admin := 0, project_contract_addr := (0, 0), user := []
          curator_list := [], validator_list := [] }).1.curator_list.count 4
      = 1 :=
  (add_curator_idempotent_membership
      { admin := 0, project_contract_addr := (0, 0), user := []
        curator_list := [], validator_list := [] } 4 (by decide)).2.2.1

/-- C5: `remove_curator` invoked by the admin always succeeds; it
clears `is_curator` while keeping the record and its
`curated_projects`, creates no record when none exists, removes every
occurrence of the address from `curator_list` by value, and a second
consecutive call changes nothing; symmetrically for
`remove_validator`. -/
theorem remove_curator_validator_spec (s : State) (a : AccountAddress) :
    (contract_remove_curator s.admin (some ⟨a⟩) s).2 = none ∧
    (∀ u, lookupUser s.user a = some u →
      lookupUser (contract_remove_curator s.admin (some ⟨a⟩) s).1.user a =
        some { u with is_curator := false }) ∧
    (lookupUser s.user a = none →
      lookupUser (contract_remove_curator s.admin (some ⟨a⟩) s).1.user a
        = none) ∧
    (contract_remove_curator s.admin (some ⟨a⟩) s).1.curator_list
      = removeAll s.curator_list a ∧
    a ∉ (contract_remove_curator s.admin (some ⟨a⟩) s).1.curator_list ∧
    contract_remove_curator s.admin (some ⟨a⟩)
        (contract_remove_curator s.admin (some ⟨a⟩) s).1
      = ((contract_remove_curator s.admin (some ⟨a⟩) s).1, none) ∧
    (contract_remove_validator s.admin (some ⟨a⟩) s).2 = none ∧
    (∀ u, lookupUser s.user a = some u →
      lookupUser (contract_remove_validator s.admin (some ⟨a⟩) s).1.user a =
        some { u with is_validator := false }) ∧
    (lookupUser s.user a = none →
      lookupUser (contract_remove_validator s.admin (some ⟨a⟩) s).1.user a
        = none) ∧
    (contract_remove_validator s.admin (some ⟨a⟩) s).1.validator_list
      = removeAll s.validator_list a ∧
    a ∉ (contract_remove_validator s.admin (some ⟨a⟩) s).1.validator_list ∧
    contract_remove_validator s.admin (some ⟨a⟩)
        (contract_remove_validator s.admin (some ⟨a⟩) s).1
      = ((contract_remove_validator s.admin (some ⟨a⟩) s).1, none) := by
  have h1 : contract_remove_curator s.admin (some ⟨a⟩) s =
      ({ s with
          user := modifyUser s.user a (fun u => { u with is_curator := false })
          curator_list := removeAll s.curator_list a }, none) := by
    simp [contract_remove_curator]
  have h2 : contract_remove_validator s.admin (some ⟨a⟩) s =
      ({ s with
          user := modifyUser s.user a
            (fun u => { u with is_validator := false })
          validator_list := removeAll s.validator_list a }, none) := by
    simp [contract_remove_validator]
  have hcself := lookupUser_modify_self s.user a
    (fun u => { u with is_curator := false })
  have hvself := lookupUser_modify_self s.user a
    (fun u => { u with is_validator := false })
  refine ⟨by rw [h1], ?_, ?_, by rw [h1], ?_, ?_, by rw [h2], ?_, ?_,
    by rw [h2], ?_, ?_⟩
  · intro u hl
    rw [h1, hcself, hl]
    rfl
  · intro hl
    rw [h1, hcself, hl]
    rfl
  · rw [h1]
    exact not_mem_removeAll_self s.curator_list a
  · rw [h1]
    simp only [contract_remove_curator]
    have hidem := modifyUser_modifyUser s.user a
      (fun u => { u with is_curator := false }) (fun v => rfl)
    simp [hidem, removeAll_removeAll]
  · intro u hl
    rw [h2, hvself, hl]
    rfl
  · intro hl
    rw [h2, hvself, hl]
    rfl
  · rw [h2]
    exact not_mem_removeAll_self s.validator_list a
  · rw [h2]
    simp only [contract_remove_validator]
    have hidem := modifyUser_modifyUser s.user a
      (fun u => { u with is_validator := false }) (fun v => rfl)
    simp [hidem, removeAll_removeAll]

theorem remove_curator_validator_spec_witness :
    lookupUser (contract_remove_curator 0 (some ⟨4⟩)
        { admin := 0, project_contract_addr := (0, 0)
          user := [(4, { is_curator := true, is_validator := false
                         curated_projects := ["p1"]
                         validated_projects := [] })]
          curator_list := [4], validator_list := [] }).1.user 4
      = some { is_curator := false, is_validator := false
               curated_projects := ["p1"], validated_projects := [] } :=
  (remove_curator_validator_spec
      { admin := 0, project_contract_addr := (0, 0)
        user := [(4, { is_curator := true, is_validator := false
                       curated_projects := ["p1"]
                       validated_projects := [] })]
        curator_list := [4], validator_list := [] } 4).2.1
    { is_curator := true, is_validator := false
      curated_projects := ["p1"], validated_projects := [] } (by decide)

/-- C6 fails as stated: when the admin transfers the admin role to
itself (`new = current admin`, which the claim explicitly includes),
the transfer succeeds and a subsequent `add_curator` invoked by the old
admin still succeeds — it does not fail with `InvalidCaller`. -/
theorem transfer_admin_self_counterexample :
    contract_transfer_admin 0 (some ⟨0⟩)
        { admin := 0, project_contract_addr := (0, 0), user := []
          curator_list := [], validator_list := [] }
      = ({ admin := 0, project_contract_addr := (0, 0), user := []
           curator_list := [], validator_list := [] }, none) ∧
    (contract_add_curator 0 (some ⟨1⟩)
        (contract_transfer_admin 0 (some ⟨0⟩)
          { admin := 0, project_contract_addr := (0, 0), user := []
            curator_list := [], validator_list := [] }).1).2 = none ∧
    (contract_add_curator 0 (some ⟨1⟩)
        (contract_transfer_admin 0 (some ⟨0⟩)
          { admin := 0, project_contract_addr := (0, 0), user := []
            curator_list := [], validator_list := [] }).1).2
      ≠ some Error.InvalidCaller := by
  refine ⟨?_, ?_, ?_⟩ <;> decide

/-- C6 (amended): `transfer_admin` invoked by a non-admin fails with
`InvalidCaller` and leaves the state unchanged; invoked by the current
admin it unconditionally replaces `admin` with the new address (even
when equal to the current one); and afterwards, provided the new admin
differs from the old one, an `add_curator` call whose invoker is the
old admin fails with `InvalidCaller`. -/
theorem transfer_admin_spec (s : State) (inv new : AccountAddress) :
    (inv ≠ s.admin →
      contract_transfer_admin inv (some ⟨new⟩) s
        = (s, some Error.InvalidCaller)) ∧
    (inv = s.admin →
      contract_transfer_admin inv (some ⟨new⟩) s
        = ({ s with admin := new }, none) ∧
      (new ≠ s.admin → ∀ p : AddrParam,
        contract_add_curator inv (some p)
            (contract_transfer_admin inv (some ⟨new⟩) s).1
          = ((contract_transfer_admin inv (some ⟨new⟩) s).1,
             some Error.InvalidCaller))) := by
  constructor
  · intro h
    simp [contract_transfer_admin, h]
  · intro h
    have h1 : contract_transfer_admin inv (some ⟨new⟩) s
        = ({ s with admin := new }, none) := by
      simp [contract_transfer_admin, h]
    refine ⟨h1, ?_⟩
    intro hne p
    have hinvnew : inv ≠ new := by
      rw [h]
      exact Ne.symm hne
    rw [h1]
    simp [contract_add_curator, hinvnew]

theorem transfer_admin_spec_witness :
    contract_transfer_admin 1 (some ⟨2⟩)
        { admin := 0, project_contract_addr := (0, 0), user := []
          curator_list := [], validator_list := [] }
      = ({ admin := 0, project_contract_addr := (0, 0), user := []
           curator_list := [], validator_list := [] },
         some Error.InvalidCaller) :=
  (transfer_admin_spec
      { admin := 0, project_contract_addr := (0, 0), user := []
        curator_list := [], validator_list := [] } 1 2).1 (by decide)

/-- C7 fails as stated: `upgrade` invoked by a non-owner is rejected by
the bare `ensure!`, whose on-chain code is the default reject
(`i32::MIN`), not the contract's typed `InvalidCaller` error (code
`-2`). -/
theorem upgrade_default_reject_counterexample :
    contract_upgrade (Address.account 1) 0 (some ⟨9, none⟩) none none id
        { admin := 0, project_contract_addr := (0, 0), user := []
          curator_list := [], validator_list := [] }
      = ({ admin := 0, project_contract_addr := (0, 0), user := []
           curator_list := [], validator_list := [] },
         [], some UpgradeErr.defaultReject) ∧
    UpgradeErr.code UpgradeErr.defaultReject
      ≠ Error.rejectCode Error.InvalidCaller := by
  refine ⟨?_, ?_⟩ <;> decide

/-- C7 (amended): `upgrade` invoked by an immediate caller that is not
the owner account fails with the default reject (whose code differs
from the typed `InvalidCaller` error) before parsing or any host call;
invoked by the owner it performs the code replacement and then, when a
migration call was supplied, exactly one self-invocation, propagating
any failure of either step to the caller. -/
theorem upgrade_owner_gate_spec (sender : Address) (owner : AccountAddress)
    (p : UpgradeParam) (hUp hInv : Option Int) (mig : State → State)
    (s : State) :
    (sender ≠ Address.account owner →
      (∀ q : Option UpgradeParam,
        contract_upgrade sender owner q hUp hInv mig s
          = (s, [], some UpgradeErr.defaultReject)) ∧
      UpgradeErr.code UpgradeErr.defaultReject
        ≠ Error.rejectCode Error.InvalidCaller) ∧
    (sender = Address.account owner →
      (∀ c, hUp = some c →
        contract_upgrade sender owner (some p) hUp hInv mig s
          = (s, [Event.replaceCode p.module],
             some (UpgradeErr.upgradeFailed c))) ∧
      (hUp = none → p.migrate = none →
        contract_upgrade sender owner (some p) hUp hInv mig s
          = (s, [Event.replaceCode p.module], none)) ∧
      (∀ ep par, hUp = none → p.migrate = some (ep, par) → hInv = none →
        contract_upgrade sender owner (some p) hUp hInv mig s
          = (mig s, [Event.replaceCode p.module, Event.invokeSelf ep par],
             none)) ∧
      (∀ ep par c, hUp = none → p.migrate = some (ep, par) → hInv = some c →
        contract_upgrade sender owner (some p) hUp hInv mig s
          = (s, [Event.replaceCode p.module, Event.invokeSelf ep par],
             some (UpgradeErr.invokeFailed c)))) := by
  constructor
  · intro h
    refine ⟨?_, by decide⟩
    intro q
    simp [contract_upgrade, h]
  · intro h
    refine ⟨?_, ?_, ?_, ?_⟩
    · intro c hc
      simp [contract_upgrade, h, hc]
    · intro hc hm
      simp [contract_upgrade, h, hc, hm]
    · intro ep par hc hm hi
      simp [contract_upgrade, h, hc, hm, hi]
    · intro ep par c hc hm hi
      simp [contract_upgrade, h, hc, hm, hi]

theorem upgrade_owner_gate_spec_witness :
    contract_upgrade (Address.account 0) 0 (some ⟨9, none⟩) none none id
        { admin := 0, project_contract_addr := (0, 0), user := []
          curator_list := [], validator_list := [] }
      = ({ admin := 0, project_contract_addr := (0, 0), user := []
           curator_list := [], validator_list := [] },
         [Event.replaceCode 9], none) :=
  ((upgrade_owner_gate_spec (Address.account 0) 0 ⟨9, none⟩ none none id
      { admin := 0, project_contract_addr := (0, 0), user := []
        curator_list := [], validator_list := [] }).2 (by decide)).2.1
    (by decide) (by decide)

/-- C10: a successful `curate` changes at most the target address's
`curated_projects` (appending the project id when absent): the admin,
the project contract address, both membership lists, every other
account's record, and the target's `is_curator`, `is_validator` and
`validated_projects` are unchanged; symmetrically a successful
`validate` changes at most `validated_projects`. -/
theorem curate_validate_frame (s s' : State) (sender : Address)
    (a : AccountAddress) (pid : ProjectId) :
    (contract_curate sender (some ⟨a, pid⟩) s = (s', none) →
      s'.admin = s.admin ∧
      s'.project_contract_addr = s.project_contract_addr ∧
      s'.curator_list = s.curator_list ∧
      s'.validator_list = s.validator_list ∧
      (∀ b, b ≠ a → lookupUser s'.user b = lookupUser s.user b) ∧
      (∃ u u', lookupUser s.user a = some u ∧
        lookupUser s'.user a = some u' ∧
        u'.is_curator = u.is_curator ∧
        u'.is_validator = u.is_validator ∧
        u'.validated_projects = u.validated_projects ∧
        u'.curated_projects =
          (if pid ∈ u.curated_projects then u.curated_projects
           else u.curated_projects ++ [pid]))) ∧
    (contract_validate sender (some ⟨a, pid⟩) s = (s', none) →
      s'.admin = s.admin ∧
      s'.project_contract_addr = s.project_contract_addr ∧
      s'.curator_list = s.curator_list ∧
      s'.validator_list = s.validator_list ∧
      (∀ b, b ≠ a → lookupUser s'.user b = lookupUser s.user b) ∧
      (∃ u u', lookupUser s.user a = some u ∧
        lookupUser s'.user a = some u' ∧
        u'.is_curator = u.is_curator ∧
        u'.is_validator = u.is_validator ∧
        u'.curated_projects = u.curated_projects ∧
        u'.validated_projects =
          (if pid ∈ u.validated_projects then u.validated_projects
           else u.validated_projects ++ [pid]))) := by
  constructor
  · intro h
    by_cases hs : sender = Address.contract s.project_contract_addr
    · cases hl : lookupUser s.user a with
      | none => simp [contract_curate, hs, hl] at h
      | some u =>
          by_cases hcur : u.is_curator
          · simp only [contract_curate, hs, if_true, hl, hcur] at h
            rw [Prod.mk.injEq] at h
            obtain ⟨h, -⟩ := h
            subst h
            refine ⟨rfl, rfl, rfl, rfl, ?_, ?_⟩
            · intro b hb
              exact lookupUser_modify_other s.user a b _ hb
            · refine ⟨u,
                { u with
                    curated_projects :=
                      if pid ∈ u.curated_projects then u.curated_projects
                      else u.curated_projects ++ [pid] },
                rfl, ?_, rfl, rfl, rfl, rfl⟩
              rw [lookupUser_modify_self, hl]
              rfl
          · simp [contract_curate, hs, hl, hcur] at h
    · simp [contract_curate, hs] at h
  · intro h
    by_cases hs : sender = Address.contract s.project_contract_addr
    · cases hl : lookupUser s.user a with
      | none => simp [contract_validate, hs, hl] at h
      | some u =>
          by_cases hval : u.is_validator
          · simp only [contract_validate, hs, if_true, hl, hval] at h
            rw [Prod.mk.injEq] at h
            obtain ⟨h, -⟩ := h
            subst h
            refine ⟨rfl, rfl, rfl, rfl, ?_, ?_⟩
            · intro b hb
              exact lookupUser_modify_other s.user a b _ hb
            · refine ⟨u,
                { u with
                    validated_projects :=
                      if pid ∈ u.validated_projects then u.validated_projects
                      else u.validated_projects ++ [pid] },
                rfl, ?_, rfl, rfl, rfl, rfl⟩
              rw [lookupUser_modify_self, hl]
              rfl
          · simp [contract_validate, hs, hl, hval] at h
    · simp [contract_validate, hs] at h

theorem curate_validate_frame_witness :
    (contract_curate (Address.contract (1, 0)) (some ⟨3, "p1"⟩)
        { admin := 0, project_contract_addr := (1, 0)
          user := [(3, { is_curator := true, is_validator := false
                         curated_projects := []
                         validated_projects := [] })]
          curator_list := [3], validator_list := [] }).1.curator_list
      = [3] :=
  ((curate_validate_frame
      { admin := 0, project_contract_addr := (1, 0)
        user := [(3, { is_curator := true, is_validator := false
                       curated_projects := []
                       validated_projects := [] })]
        curator_list := [3], validator_list := [] }
      { admin := 0, project_contract_addr := (1, 0)
        user := [(3, { is_curator := true, is_validator := false
                       curated_projects := ["p1"]
                       validated_projects := [] })]
        curator_list := [3], validator_list := [] }
      (Address.contract (1, 0)) 3 "p1").1 (by decide)).2.2.1

end OverlayUsers
